/-
Verification of the langchain-azure vector-store query compiler against its
natural-language specification.

The development shallowly embeds the relevant parts of
`libs/sqlserver/langchain_sqlserver/vectorstores.py` (filter compiler,
result mapper, batch ingest, delete) and
`libs/azure-ai/langchain_azure_ai/vectorstores/azure_cosmos_db_no_sql.py`
(query builder, result mapper, MMR call sites, delete) as executable Lean
definitions, and proves or refutes the frozen claims about them.
-/
import Mathlib

/-! ## Python-side value model

Scalar values appearing in filters. Python floats are modelled by rationals:
their numeric content is never computed on by the filter compiler, only
carried into bound parameters. -/

inductive Scalar where
  | s (x : String)
  | i (n : Int)
  | f (q : Rat)
  | b (x : Bool)
deriving DecidableEq, Repr

/-- A filter value attached to an operator: a scalar or a list of scalars
(the payload of `$in` / `$nin` / `$between`). -/
inductive FilterValue where
  | scalar (v : Scalar)
  | lst (xs : List Scalar)
deriving DecidableEq, Repr

/-! The caller-supplied nested filter mapping of
`SQLServer_VectorStore._create_filter_clause`.  A dict maps keys to either a
raw value (implicit `$eq`), an operator dict `{op: value}`, or — under
`$and` / `$or` — a list of sub-filters.  Python dicts are ordered, hence the
list representations. -/

mutual

inductive Filters where
  | dict (entries : FilterDict)
deriving DecidableEq, Repr

inductive FilterDict where
  | nil
  | cons (key : String) (arg : FilterEntry) (tl : FilterDict)
deriving DecidableEq, Repr

inductive FilterEntry where
  | value (v : FilterValue)
  | opSpec (entries : List (String × FilterValue))
  | sub (fs : FilterList)
deriving DecidableEq, Repr

inductive FilterList where
  | nil
  | cons (hd : Filters) (tl : FilterList)
deriving DecidableEq, Repr

end

/-- Python `str()` of a scalar (approximation: numeric formatting details are
irrelevant to the claims — the result is only ever carried as a bound
parameter or an opaque id). -/
def Scalar.pyStr : Scalar → String
  | .s x => x
  | .i n => toString n
  | .f q => toString q
  | .b x => if x then "True" else "False"

/-- Python `str()` of a scalar-or-list value. -/
def FilterValue.pyStr : FilterValue → String
  | .scalar v => v.pyStr
  | .lst xs => "[" ++ String.intercalate ", " (xs.map Scalar.pyStr) ++ "]"

mutual

/-- Python `str()` of a nested filter dict (shape `\x7b'k': v\x7d`); used when a
list of sub-dicts lands in field-value position and is stringified by the
`$eq` branch. -/
def Filters.pyStr : Filters → String
  | .dict es => "\x7b" ++ FilterDict.pyStr es ++ "\x7d"

def FilterDict.pyStr : FilterDict → String
  | .nil => ""
  | .cons k v .nil => "\x27" ++ k ++ "\x27: " ++ FilterEntry.pyStr v
  | .cons k v tl => "\x27" ++ k ++ "\x27: " ++ FilterEntry.pyStr v ++ ", " ++ FilterDict.pyStr tl

def FilterEntry.pyStr : FilterEntry → String
  | .value v => v.pyStr
  | .opSpec es => "\x7b" ++ String.intercalate ", " (es.map fun p => "\x27" ++ p.1 ++ "\x27: " ++ p.2.pyStr) ++ "\x7d"
  | .sub fs => "[" ++ FilterList.pyStr fs ++ "]"

def FilterList.pyStr : FilterList → String
  | .nil => ""
  | .cons f .nil => f.pyStr
  | .cons f tl => f.pyStr ++ ", " ++ FilterList.pyStr tl

end

/-! ## Errors raised by the filter compiler

One constructor per `raise` site in `_create_filter_clause` /
`_handle_field_filter`. -/

inductive FilterError where
  /-- "Got an empty dictionary for filters." -/
  | emptyFilterDict
  /-- `INVALID_FILTER_INPUT_EXPECTED_AND_OR`: `$`-key at top level that is not `$and`/`$or`. -/
  | invalidTopLevelOp (key : String)
  /-- "Expected a list, but got ..." for the value under `$and`/`$or`. -/
  | expectedList
  /-- `INVALID_FILTER_INPUT_EXPECTED_DICT`: an empty `$and`/`$or` child list. -/
  | emptyConjunction
  /-- "Invalid filter condition. Expected a field but got: ..." in a multi-key dict. -/
  | fieldExpected (key : String)
  /-- "Expected a field but got an operator" in `_handle_field_filter`. -/
  | fieldIsOperator (field : String)
  /-- "Invalid field name ... Expected a valid identifier." -/
  | invalidFieldName (field : String)
  /-- An operator dict with more or fewer than one key. -/
  | multiKeyOperatorDict
  /-- "Invalid operator ... Expected one of ..." -/
  | unsupportedOperator (op : String)
  /-- `low, high = filter_value` failing to unpack exactly two values. -/
  | operatorArity
  /-- `NotImplementedError` for an `$in`/`$nin` payload that is not a list. -/
  | unsupportedValueType
deriving DecidableEq, Repr

/-- Comparison operator kinds appearing in compiled clauses. -/
inductive CmpOp where
  | eq | ne | lt | le | gt | ge
deriving DecidableEq, Repr

/-! ## Compiled clauses

The SQLAlchemy expression produced by the filter compiler, as an AST.  `cmp`
is a comparison of the JSON-extracted field value against one bound value
(`casted` records the `cast(..., Numeric(10, 2))` wrapper); `inClause` is an
`IN` / `NOT IN` membership test against stringified scalars; `conj` is
`sqlalchemy.and_` (`isAnd = true`) or `sqlalchemy.or_`. -/

mutual

inductive Clause where
  | cmp (op : CmpOp) (field : String) (value : FilterValue) (casted : Bool)
  | inClause (neg : Bool) (field : String) (vals : List String)
  | likeClause (field : String) (pat : String)
  | conj (isAnd : Bool) (children : ClauseList)
deriving DecidableEq, Repr

inductive ClauseList where
  | nil
  | cons (hd : Clause) (tl : ClauseList)
deriving DecidableEq, Repr

end

/-- Python `s.startswith("$")` (kernel-computable form of `String.startsWith`
for the single-character sigil used by the compiler). -/
def startsWithDollar (s : String) : Bool :=
  match s.toList with
  | c :: _ => c = '$'
  | [] => false

/-- Python `s.lower()` (kernel-computable form of `String.toLower`). -/
def strLower (s : String) : String :=
  String.mk (s.toList.map Char.toLower)

/-- Python `str.isidentifier`: nonempty, first char alphabetic or underscore,
rest alphanumeric or underscore (ASCII approximation). -/
def isPyIdentifier (s : String) : Bool :=
  match s.toList with
  | [] => false
  | c :: cs => (c.isAlpha || c = '_') && cs.all (fun d => d.isAlphanum || d = '_')

/-- The fixed operator set `SUPPORTED_OPERATORS`. -/
def supportedOperators : List String :=
  ["$eq", "$ne", "$lt", "$lte", "$gt", "$gte", "$in", "$nin", "$like", "$between", "$and", "$or"]

/-- Is the filter value a Python `str` instance?  (`isinstance(filter_value, str)`). -/
def FilterValue.isStr : FilterValue → Bool
  | .scalar (.s _) => true
  | _ => false

/-- `SQLServer_VectorStore._handle_field_filter`: compile one field predicate.
`arg` is the dict value under the field key: a raw value (implicit `$eq`),
an operator dict, or a list of sub-dicts (which Python happily stringifies
through the `$eq` branch). -/
def handleFieldFilter (field : String) (arg : FilterEntry) : Except FilterError Clause :=
  if startsWithDollar field then .error (.fieldIsOperator field)
  else if ¬ isPyIdentifier field then .error (.invalidFieldName field)
  else
    -- determine (operator, filter_value); a dict value must hold exactly one
    -- supported operator key, anything else is an implicit `$eq`
    let opv : Except FilterError (String × FilterEntry) :=
      match arg with
      | .opSpec [(op, fv)] =>
          if op ∈ supportedOperators then .ok (op, .value fv) else .error (.unsupportedOperator op)
      | .opSpec _ => .error .multiKeyOperatorDict
      | a => .ok ("$eq", a)
    match opv with
    | .error e => .error e
    | .ok (op, fvEntry) =>
      -- COMPARISONS_TO_NATIVE: value coerced with str()
      if op = "$eq" ∨ op = "$ne" then
        let fvStr : String :=
          match fvEntry with
          | .value v => v.pyStr
          | .opSpec es => (FilterEntry.opSpec es).pyStr
          | .sub fs => (FilterEntry.sub fs).pyStr
        .ok (.cmp (if op = "$eq" then .eq else .ne) field (.scalar (.s fvStr)) false)
      else
        match fvEntry with
        | .value fv =>
          -- NUMERIC_OPERATORS: cast the extracted value unless the filter value is a str
          if op = "$lt" ∨ op = "$lte" ∨ op = "$gt" ∨ op = "$gte" then
            let o : CmpOp := if op = "$lt" then .lt else if op = "$lte" then .le else if op = "$gt" then .gt else .ge
            .ok (.cmp o field fv (¬ fv.isStr))
          else if op = "$between" then
            -- `low, high = filter_value`; then the cast is applied when
            -- `filter_value` (the pair itself) is not a str
            match fv with
            | .lst [low, high] =>
              let casted := ¬ (FilterValue.lst [low, high]).isStr
              .ok (.conj true (.cons (.cmp .ge field (.scalar low) casted)
                    (.cons (.cmp .le field (.scalar high) casted) .nil)))
            | .lst _ => .error .operatorArity
            | .scalar _ => .error .operatorArity
          else if op = "$in" ∨ op = "$nin" then
            match fv with
            | .lst xs => .ok (.inClause (op = "$nin") field (xs.map Scalar.pyStr))
            | .scalar _ => .error .unsupportedValueType
          else if op = "$like" then
            .ok (.likeClause field fv.pyStr)
          else .error (.unsupportedOperator op)
        | _ =>
          -- an operator dict or sub-list as the payload of a non-equality
          -- operator: Python would fail at execution; unreachable for the
          -- spec data model (operator payloads are scalars or scalar lists)
          .error .unsupportedValueType

/-- Does any key of the dict start with `$`?  (the multi-key validation loop). -/
def FilterDict.firstOpKey : FilterDict → Option String
  | .nil => none
  | .cons k _ tl => if startsWithDollar k then some k else tl.firstOpKey

/-- Length of a filter dict. -/
def FilterDict.length : FilterDict → Nat
  | .nil => 0
  | .cons _ _ tl => tl.length + 1

/-- Length of a clause list. -/
def ClauseList.length : ClauseList → Nat
  | .nil => 0
  | .cons _ tl => tl.length + 1

mutual

/-- `SQLServer_VectorStore._create_filter_clause`, non-`None` branch: decide
whether the single top-level key is an operator or a field, then build the
clause.  A single-element `$and`/`$or` degenerates to its only child; an
empty one raises `INVALID_FILTER_INPUT_EXPECTED_DICT`. -/
def createFilterClauseAux : Filters → Except FilterError Clause
  | .dict .nil => .error .emptyFilterDict
  | .dict (.cons key arg .nil) =>
    if startsWithDollar key then
      if strLower key = "$and" ∨ strLower key = "$or" then
        match arg with
        | .sub fs =>
          match createClauseList fs with
          | .error e => .error e
          | .ok .nil => .error .emptyConjunction
          | .ok (.cons c .nil) => .ok c
          | .ok cs => .ok (.conj (strLower key = "$and") cs)
        | _ => .error .expectedList
      else .error (.invalidTopLevelOp key)
    else handleFieldFilter key arg
  | .dict entries =>
    -- more than one key: all keys must be fields, combined with and_
    match entries.firstOpKey with
    | some k => .error (.fieldExpected k)
    | none =>
      match createFieldList entries with
      | .error e => .error e
      | .ok .nil => .error .emptyConjunction
      | .ok (.cons c .nil) => .ok c
      | .ok cs => .ok (.conj true cs)

/-- `[self._create_filter_clause(el) for el in value]`. -/
def createClauseList : FilterList → Except FilterError ClauseList
  | .nil => .ok .nil
  | .cons f tl =>
    match createFilterClauseAux f with
    | .error e => .error e
    | .ok c =>
      match createClauseList tl with
      | .error e => .error e
      | .ok cs => .ok (.cons c cs)

/-- `[self._handle_field_filter(k, v) for k, v in filters.items()]`. -/
def createFieldList : FilterDict → Except FilterError ClauseList
  | .nil => .ok .nil
  | .cons k v tl =>
    match handleFieldFilter k v with
    | .error e => .error e
    | .ok c =>
      match createFieldList tl with
      | .error e => .error e
      | .ok cs => .ok (.cons c cs)

end

/-- `SQLServer_VectorStore._create_filter_clause`: `None` yields no clause. -/
def createFilterClause : Option Filters → Except FilterError (Option Clause)
  | none => .ok none
  | some f =>
    match createFilterClauseAux f with
    | .error e => .error e
    | .ok c => .ok (some c)

deriving instance DecidableEq for Except

/-! ## Rendering a clause to statement text plus bound parameters

SQLAlchemy compiles the clause produced by the filter compiler into statement
text with named placeholders; both the JSON path and every comparison value
travel as bound parameters (cf. the docstring example
`JSON_VALUE(tbl.content_metadata, :JSON_VALUE_1) = :JSON_VALUE_2`).
Parameter names are generated from a counter. -/

/-- The generated name of the `n`-th bound parameter. -/
def pname (n : Nat) : String :=
  "p" ++ toString n

/-- SQL text of a comparison operator. -/
def CmpOp.sql : CmpOp → String
  | .eq => "="
  | .ne => "<>"
  | .lt => "<"
  | .le => "<="
  | .gt => ">"
  | .ge => ">="

/-- `JSON_VALUE(content_metadata, :path)` with the path as parameter `p`. -/
def jsonValueCol (p : String) : String :=
  "JSON_VALUE(content_metadata, :" ++ p ++ ")"

/-- Placeholder list and parameters for the stringified members of an
`IN` / `NOT IN` list, starting at parameter counter `n`. -/
def renderInMembers : List String → Nat → List String × List (String × FilterValue) × Nat
  | [], n => ([], [], n)
  | v :: vs, n =>
    let (phs, ps, m) := renderInMembers vs (n + 1)
    ((":" ++ pname n) :: phs, (pname n, FilterValue.scalar (.s v)) :: ps, m)

/-- Is the clause a boolean connective (rendered with parentheses when nested)? -/
def Clause.isComposite : Clause → Bool
  | .conj _ _ => true
  | _ => false

mutual

/-- Render one clause: statement text, ordered bound parameters, next counter. -/
def renderClause : Clause → Nat → String × List (String × FilterValue) × Nat
  | .cmp op field v casted, n =>
    let col := jsonValueCol (pname n)
    let col := if casted then "CAST(" ++ col ++ " AS NUMERIC(10, 2))" else col
    (col ++ " " ++ op.sql ++ " :" ++ pname (n + 1),
     [(pname n, FilterValue.scalar (.s ("$." ++ field))), (pname (n + 1), v)],
     n + 2)
  | .inClause neg field vals, n =>
    let (phs, ps, m) := renderInMembers vals (n + 1)
    (jsonValueCol (pname n) ++ (if neg then " NOT IN (" else " IN (")
       ++ String.intercalate ", " phs ++ ")",
     (pname n, FilterValue.scalar (.s ("$." ++ field))) :: ps,
     m)
  | .likeClause field pat, n =>
    (jsonValueCol (pname n) ++ " LIKE :" ++ pname (n + 1),
     [(pname n, FilterValue.scalar (.s ("$." ++ field))), (pname (n + 1), FilterValue.scalar (.s pat))],
     n + 2)
  | .conj isAnd cs, n =>
    let (ts, ps, m) := renderChildren cs n
    (String.intercalate (if isAnd then " AND " else " OR ") ts, ps, m)

/-- Render the children of a connective, parenthesizing nested connectives. -/
def renderChildren : ClauseList → Nat → List String × List (String × FilterValue) × Nat
  | .nil, n => ([], [], n)
  | .cons c tl, n =>
    let (t, ps, n1) := renderClause c n
    let t := if c.isComposite then "(" ++ t ++ ")" else t
    let (ts, ps2, n2) := renderChildren tl n1
    (t :: ts, ps ++ ps2, n2)

end

/-! ## Value erasure

`eraseClause` blanks every comparison value while keeping fields, operators,
cast flags and list lengths.  If rendering yields the same statement text
before and after erasure, no value content is interpolated into the text. -/

/-- Blank a scalar, keeping only its runtime type. -/
def Scalar.erase : Scalar → Scalar
  | .s _ => .s ""
  | .i _ => .i 0
  | .f _ => .f 0
  | .b _ => .b true

/-- Blank a filter value, keeping type and list length. -/
def FilterValue.erase : FilterValue → FilterValue
  | .scalar v => .scalar v.erase
  | .lst xs => .lst (xs.map Scalar.erase)

mutual

/-- Blank every bound value in a clause. -/
def Clause.erase : Clause → Clause
  | .cmp op field v casted => .cmp op field v.erase casted
  | .inClause neg field vals => .inClause neg field (vals.map fun _ => "")
  | .likeClause field _ => .likeClause field ""
  | .conj isAnd cs => .conj isAnd cs.erase

def ClauseList.erase : ClauseList → ClauseList
  | .nil => .nil
  | .cons c tl => .cons c.erase tl.erase

end

mutual

/-- All comparison values of a clause, in rendering order. -/
def Clause.values : Clause → List FilterValue
  | .cmp _ _ v _ => [v]
  | .inClause _ _ vals => vals.map (fun v => FilterValue.scalar (.s v))
  | .likeClause _ pat => [.scalar (.s pat)]
  | .conj _ cs => cs.values

def ClauseList.values : ClauseList → List FilterValue
  | .nil => []
  | .cons c tl => c.values ++ tl.values

end

/-! ## Lemmas: rendering is value-independent, values land in parameters -/

theorem renderInMembers_blank (vs : List String) (n : Nat) :
    (renderInMembers (vs.map fun _ => "") n).1 = (renderInMembers vs n).1 ∧
    (renderInMembers (vs.map fun _ => "") n).2.2 = (renderInMembers vs n).2.2 := by
  induction vs generalizing n with
  | nil => simp [renderInMembers]
  | cons v vs ih =>
    have h := ih (n + 1)
    simp only [List.map, renderInMembers]
    exact ⟨by rw [h.1], by rw [h.2]⟩

theorem renderInMembers_params (vs : List String) (n : Nat) :
    (renderInMembers vs n).2.1.map Prod.snd = vs.map (fun v => FilterValue.scalar (.s v)) := by
  induction vs generalizing n with
  | nil => simp [renderInMembers]
  | cons v vs ih => simp [renderInMembers, ih (n + 1)]

theorem erase_isComposite (c : Clause) : c.erase.isComposite = c.isComposite := by
  cases c <;> rfl

mutual

theorem renderClause_erase (c : Clause) (n : Nat) :
    (renderClause c.erase n).1 = (renderClause c n).1 ∧
    (renderClause c.erase n).2.2 = (renderClause c n).2.2 :=
  match c with
  | .cmp op field v casted => by simp [renderClause, Clause.erase]
  | .inClause neg field vals => by
    have h := renderInMembers_blank vals (n + 1)
    simp only [Clause.erase, renderClause]
    exact ⟨by rw [h.1], by rw [h.2]⟩
  | .likeClause field pat => by simp [renderClause, Clause.erase]
  | .conj isAnd cs => by
    have h := renderChildren_erase cs n
    simp only [Clause.erase, renderClause]
    exact ⟨by rw [h.1], by rw [h.2]⟩

theorem renderChildren_erase (cs : ClauseList) (n : Nat) :
    (renderChildren cs.erase n).1 = (renderChildren cs n).1 ∧
    (renderChildren cs.erase n).2.2 = (renderChildren cs n).2.2 :=
  match cs with
  | .nil => ⟨rfl, rfl⟩
  | .cons c tl => by
    have hc := renderClause_erase c n
    have htl := renderChildren_erase tl (renderClause c n).2.2
    simp only [ClauseList.erase, renderChildren]
    rw [hc.1, hc.2, erase_isComposite c, htl.1, htl.2]
    exact ⟨rfl, rfl⟩

end

mutual

theorem clause_values_sub (c : Clause) (n : Nat) :
    List.Sublist c.values ((renderClause c n).2.1.map Prod.snd) :=
  match c with
  | .cmp op field v casted => by
    simp only [Clause.values, renderClause, List.map]
    exact List.Sublist.cons _ (List.Sublist.refl _)
  | .inClause neg field vals => by
    simp only [Clause.values, renderClause, List.map, renderInMembers_params]
    exact List.Sublist.cons _ (List.Sublist.refl _)
  | .likeClause field pat => by
    simp only [Clause.values, renderClause, List.map]
    exact List.Sublist.cons _ (List.Sublist.refl _)
  | .conj isAnd cs => by
    simpa only [Clause.values, renderClause] using clauses_values_sub cs n

theorem clauses_values_sub (cs : ClauseList) (n : Nat) :
    List.Sublist cs.values ((renderChildren cs n).2.1.map Prod.snd) :=
  match cs with
  | .nil => List.Sublist.slnil
  | .cons c tl => by
    have hc := clause_values_sub c n
    have htl := clauses_values_sub tl (renderClause c n).2.2
    simp only [ClauseList.values, renderChildren, List.map_append]
    exact List.Sublist.append hc htl

end

/-- C1.  For every filter accepted by the filter compiler, the rendered
statement text is unchanged when every comparison value is blanked (so no
scalar or list value content is interpolated into the text), and every
comparison value occurs among the rendered bound-parameter values. -/
theorem filter_compiler_binds_all_values (f : Filters) (c : Clause)
    (hc : createFilterClauseAux f = .ok c) (n : Nat) :
    (renderClause c.erase n).1 = (renderClause c n).1 ∧
    List.Sublist c.values ((renderClause c n).2.1.map Prod.snd) :=
  ⟨(renderClause_erase c n).1, clause_values_sub c n⟩

/-- Witness for C1 at the filter `{"$or": [{"name": "bob"}, {"score": {"$gt": 7}}]}`. -/
theorem filter_compiler_binds_all_values_witness :
    createFilterClauseAux
        (.dict (.cons "$or" (.sub
          (.cons (.dict (.cons "name" (.value (.scalar (.s "bob"))) .nil))
          (.cons (.dict (.cons "score" (.opSpec [("$gt", .scalar (.i 7))]) .nil))
          .nil))) .nil)) =
      .ok (.conj false (.cons (.cmp .eq "name" (.scalar (.s "bob")) false)
        (.cons (.cmp .gt "score" (.scalar (.i 7)) true) .nil))) ∧
    ((renderClause (Clause.erase (.conj false (.cons (.cmp .eq "name" (.scalar (.s "bob")) false)
        (.cons (.cmp .gt "score" (.scalar (.i 7)) true) .nil)))) 0).1 =
      (renderClause (.conj false (.cons (.cmp .eq "name" (.scalar (.s "bob")) false)
        (.cons (.cmp .gt "score" (.scalar (.i 7)) true) .nil))) 0).1 ∧
     List.Sublist
      (Clause.values (.conj false (.cons (.cmp .eq "name" (.scalar (.s "bob")) false)
        (.cons (.cmp .gt "score" (.scalar (.i 7)) true) .nil))))
      ((renderClause (.conj false (.cons (.cmp .eq "name" (.scalar (.s "bob")) false)
        (.cons (.cmp .gt "score" (.scalar (.i 7)) true) .nil))) 0).2.1.map Prod.snd)) :=
  ⟨by decide,
   filter_compiler_binds_all_values
     (.dict (.cons "$or" (.sub
       (.cons (.dict (.cons "name" (.value (.scalar (.s "bob"))) .nil))
       (.cons (.dict (.cons "score" (.opSpec [("$gt", .scalar (.i 7))]) .nil))
       .nil))) .nil))
     _ (by decide) 0⟩

/-- C6.  An `$and`/`$or` with exactly one child compiles to exactly what that
child alone compiles to (no extra connective, parentheses or wrapping), and
an `$and`/`$or` with an empty child list fails with the empty-conjunction
validation error. -/
theorem conjunction_arity_behavior :
    (∀ f : Filters,
      createFilterClauseAux (.dict (.cons "$and" (.sub (.cons f .nil)) .nil)) =
        createFilterClauseAux f ∧
      createFilterClauseAux (.dict (.cons "$or" (.sub (.cons f .nil)) .nil)) =
        createFilterClauseAux f) ∧
    createFilterClauseAux (.dict (.cons "$and" (.sub .nil) .nil)) = .error .emptyConjunction ∧
    createFilterClauseAux (.dict (.cons "$or" (.sub .nil) .nil)) = .error .emptyConjunction := by
  refine ⟨fun f => ⟨?_, ?_⟩, by decide, by decide⟩ <;>
    · simp only [createFilterClauseAux, createClauseList]
      cases h : createFilterClauseAux f <;> simp [h, startsWithDollar, strLower]

/-- C2 (refuting the string half of the claim).  `$between` applies the
`NUMERIC(10, 2)` cast to the extracted field value even when both bounds are
strings, because the code tests `isinstance(filter_value, str)` on the
`(low, high)` pair itself, which is never a `str`.  The numeric half of the
claim does hold: an integer pair is cast as well. -/
theorem between_always_casts :
    handleFieldFilter "score" (.opSpec [("$between", .lst [.s "5", .s "10"])]) =
      .ok (.conj true (.cons (.cmp .ge "score" (.scalar (.s "5")) true)
        (.cons (.cmp .le "score" (.scalar (.s "10")) true) .nil))) ∧
    handleFieldFilter "score" (.opSpec [("$between", .lst [.i 5, .i 10])]) =
      .ok (.conj true (.cons (.cmp .ge "score" (.scalar (.i 5)) true)
        (.cons (.cmp .le "score" (.scalar (.i 10)) true) .nil))) ∧
    handleFieldFilter "score" (.opSpec [("$gt", .scalar (.s "5"))]) =
      .ok (.cmp .gt "score" (.scalar (.s "5")) false) := by
  refine ⟨by decide, by decide, by decide⟩

/-! ## Diversity reranker (MMR)

`maximal_marginal_relevance` itself lives in
`langchain_azure_ai/vectorstores/utils.py`, which is part of this repository
but not among the provided sources; it is therefore modelled from the spec.
What *is* in the sources is how its returned index sequence is turned into
the final document list by the two call sites, which differ. -/

/-- Modelled from the spec: the diversity penalty of candidate `i` — the
maximum similarity to any already-selected candidate, `0` when nothing is
selected yet.  Similarities are integer-valued (`sim`): the spec's
floating-point cosine similarity does not embed, so the similarity measure
is an abstract parameter of the selection. -/
def mmrPenalty (sim : α → α → Int) (embs : List α) (d : α) (ei : α) :
    List Nat → Int
  | [] => 0
  | j :: js => (js.map fun j2 => sim ei (embs.getD j2 d)).foldl max (sim ei (embs.getD j d))

/-- Modelled from the spec: `mmrScore(i) = λ·relevance(i) − (1−λ)·penalty(i)`,
scaled by the positive denominator `lamDen` of `λ = lamNum / lamDen` so the
greedy argmax can compare exact integers. -/
def mmrScore (sim : α → α → Int) (q : α) (embs : List α) (d : α)
    (lamNum lamDen : Int) (selected : List Nat) (i : Nat) : Int :=
  lamNum * sim q (embs.getD i d) - (lamDen - lamNum) * mmrPenalty sim embs d (embs.getD i d) selected

/-- Modelled from the spec: argmax over the remaining candidates, replacing
the incumbent only on a strictly greater score, so the lowest original index
wins ties. -/
def mmrArgmax (score : Nat → Int) : List Nat → Option Nat
  | [] => none
  | i :: is => some (is.foldl (fun best j => if score j > score best then j else best) i)

/-- Modelled from the spec: greedy MMR selection loop.  Each round moves the
argmax of `mmrScore` from `remaining` to `selected`; the result lists the
selected candidate indices in selection order. -/
def mmrLoop (sim : α → α → Int) (q : α) (embs : List α) (d : α)
    (lamNum lamDen : Int) : Nat → List Nat → List Nat → List Nat
  | 0, _, _ => []
  | fuel + 1, selected, remaining =>
    match mmrArgmax (mmrScore sim q embs d lamNum lamDen selected) remaining with
    | none => []
    | some i =>
      i :: mmrLoop sim q embs d lamNum lamDen fuel (selected ++ [i]) (remaining.erase i)

/-- Modelled from the spec: `maximal_marginal_relevance(query, embeddings,
lambda_mult, k)` — the selected candidate indices in selection order. -/
def maximalMarginalRelevance (sim : α → α → Int) (q : α) (embs : List α)
    (lamNum lamDen : Int) (k : Nat) : List Nat :=
  mmrLoop sim q embs q lamNum lamDen k [] (List.range embs.length)

/-- `AzureCosmosDBNoSqlVectorSearch.max_marginal_relevance_search_by_vector`,
result assembly: `mmr_docs = [docs[i][0] for i in mmr_doc_indexes]`. -/
def cosmosMmrDocs (docs : List α) (idxs : List Nat) : List α :=
  idxs.filterMap fun i => docs.get? i

/-- `SQLServer_VectorStore.max_marginal_relevance_search_by_vector`, result
assembly: `[value for idx, value in enumerate(results_as_docs) if idx in
mmr_selects]`. -/
def sqlserverMmrDocs (docs : List α) (idxs : List Nat) : List α :=
  (docs.enum.filter fun p => p.1 ∈ idxs).map Prod.snd

/-- Integer dot product, the concrete similarity used by the witnesses (for
unit vectors it coincides with cosine similarity). -/
def dotInt : List Int → List Int → Int
  | a :: as, b :: bs => a * b + dotInt as bs
  | _, _ => 0

theorem enumFrom_filter_sub (P : Nat × α → Bool) :
    ∀ (l : List α) (n : Nat), List.Sublist (((List.enumFrom n l).filter P).map Prod.snd) l
  | [], _ => by simp
  | a :: as, n => by
    rw [List.enumFrom_cons, List.filter_cons]
    by_cases h : P (n, a) = true
    · rw [if_pos h]
      exact List.Sublist.cons₂ _ (enumFrom_filter_sub P as (n+1))
    · rw [if_neg h]
      exact List.Sublist.cons _ (enumFrom_filter_sub P as (n+1))

/-- C3 (amended).  The Cosmos call site maps the MMR index sequence directly,
so its `i`-th returned document is the `i`-th selected candidate; the SQL
Server call site instead filters the fetched documents by membership in the
index set, so its output is a sublist of the store-ordered candidate list
(original store order), not the selection order. -/
theorem mmr_output_order {α : Type} (docs : List α) (idxs : List Nat) (d : α)
    (h : ∀ i ∈ idxs, i < docs.length) :
    cosmosMmrDocs docs idxs = idxs.map (fun i => docs.getD i d) ∧
    List.Sublist (sqlserverMmrDocs docs idxs) docs := by
  constructor
  · induction idxs with
    | nil => rfl
    | cons i is ih =>
      have hi : i < docs.length := h i (by simp)
      have hsome : docs.get? i = some (docs.getD i d) := by
        rw [List.getD_eq_getElem?_getD, List.get?_eq_getElem?]
        cases hx : docs[i]? with
        | none => exact absurd (List.getElem?_eq_none_iff.mp hx) (by omega)
        | some x => rfl
      simp only [cosmosMmrDocs, List.filterMap_cons, hsome, List.map_cons]
      exact congrArg _ (ih (fun j hj => h j (List.mem_cons_of_mem _ hj)))
  · unfold sqlserverMmrDocs List.enum
    exact enumFrom_filter_sub _ docs 0

/-- Witness for C3 (amended) at two documents with selection order `[1, 0]`. -/
theorem mmr_output_order_witness :
    (∀ i ∈ [1, 0], i < (["d0", "d1"] : List String).length) ∧
    (cosmosMmrDocs ["d0", "d1"] [1, 0] = ([1, 0]).map (fun i => (["d0", "d1"]).getD i "d0") ∧
     List.Sublist (sqlserverMmrDocs ["d0", "d1"] [1, 0]) ["d0", "d1"]) :=
  ⟨by decide, mmr_output_order ["d0", "d1"] [1, 0] "d0" (by decide)⟩

/-- C3 counterexample.  With query `[1,0]`, candidates `e0 = [0,1]`,
`e1 = [1,0]` (unit vectors, so dot product equals cosine), `λ = 1/2`,
`k = 2`, greedy MMR selects index 1 first, then 0; the SQL Server call site
nevertheless returns the documents in store order `["d0", "d1"]`, not the
selection order `["d1", "d0"]` required by the claim. -/
theorem mmr_store_order_counterexample :
    maximalMarginalRelevance dotInt [1, 0] [[0, 1], [1, 0]] 1 2 2 = [1, 0] ∧
    sqlserverMmrDocs ["d0", "d1"]
      (maximalMarginalRelevance dotInt [1, 0] [[0, 1], [1, 0]] 1 2 2) = ["d0", "d1"] ∧
    cosmosMmrDocs ["d0", "d1"]
      (maximalMarginalRelevance dotInt [1, 0] [[0, 1], [1, 0]] 1 2 2) = ["d1", "d0"] ∧
    (["d0", "d1"] : List String) ≠ ["d1", "d0"] :=
  ⟨by decide, by decide, by decide, by decide⟩

/-! ## Cosmos DB NoSQL values, items and parameters

Dynamic values appearing in Cosmos items and query parameters.  Floats are
opaque rationals (never computed on). -/

mutual

inductive CVal where
  | s (x : String)
  | i (n : Int)
  | num (q : Rat)
  | boolean (x : Bool)
  | null
  | arr (xs : CArr)
  | obj (entries : CObj)
deriving DecidableEq, Repr

inductive CArr where
  | nil
  | cons (hd : CVal) (tl : CArr)
deriving DecidableEq, Repr

inductive CObj where
  | nil
  | cons (k : String) (v : CVal) (tl : CObj)
deriving DecidableEq, Repr

end

/-- Python `d[key]` on a dict: the value, or a `KeyError`. -/
def CObj.getKey : CObj → String → Except String CVal
  | .nil, key => .error ("KeyError: " ++ key)
  | .cons k v tl, key => if k = key then .ok v else tl.getKey key

/-- Python `key in d`. -/
def CObj.hasKey : CObj → String → Bool
  | .nil, _ => false
  | .cons k _ tl, key => k = key || tl.hasKey key

/-- Python `d.pop(key, default)`: remove the first binding of `key`. -/
def CObj.removeKey : CObj → String → CObj
  | .nil, _ => .nil
  | .cons k v tl, key => if k = key then tl else .cons k v (tl.removeKey key)

/-- Python `d[key] = v`: overwrite in place or append. -/
def CObj.setKey : CObj → String → CVal → CObj
  | .nil, key, v => .cons key v .nil
  | .cons k w tl, key, v => if k = key then .cons k v tl else .cons k w (tl.setKey key v)

/-- One entry of `full_text_rank_filter`: `{"search_field": ..., "search_text": ...}`. -/
structure RankFilter where
  searchField : String
  searchText : String
deriving DecidableEq, Repr

/-- The per-store fields the Cosmos query builder reads from the instance:
`vector_search_fields`, `metadata_key` and `table_alias`. -/
structure CosmosConfig where
  textField : String
  embeddingField : String
  metadataKey : String
  tableAlias : String
deriving DecidableEq, Repr

/-- Python `str.split()`: split on spaces, dropping empty pieces
(whitespace approximation). -/
def pySplit (s : String) : List String :=
  (s.splitOn " ").filter (fun t => t ≠ "")

/-- Python repr of a float list (interpolated verbatim into hybrid queries);
`None` renders as `"None"`. -/
def pyReprFloats : Option (List Rat) → String
  | none => "None"
  | some xs => "[" ++ String.intercalate ", " (xs.map toString) ++ "]"

/-- `FullTextScore(c.field, ['t1', 't2'])` for one rank filter entry. -/
def fullTextScoreExpr (table : String) (rf : RankFilter) : String :=
  "FullTextScore(" ++ table ++ "." ++ rf.searchField ++ ", ["
    ++ String.intercalate ", " ((pySplit rf.searchText).map fun term => "\x27" ++ term ++ "\x27")
    ++ "])"

/-- Python truthiness of an optional string (`None` and `""` are falsy). -/
def pyTruthy : Option String → Bool
  | none => false
  | some s => s ≠ ""

/-- `AzureCosmosDBNoSqlVectorSearch._generate_projection_fields`, including
its quirks: for ranking/hybrid without projection mapping or rank filters the
`"as text ... as metadata"` tail is a stray discarded expression, and the
rank-filter projection for the non-ranking branch omits the separator after
`c.id`. -/
def generateProjectionFields (cfg : CosmosConfig)
    (projectionMapping : Option (List (String × String))) (searchType : String)
    (embeddings : Option (List Rat)) (fullTextRankFilter : Option (List RankFilter))
    (withEmbedding : Bool) : String :=
  let table := cfg.tableAlias
  if searchType = "full_text_ranking" ∨ searchType = "hybrid" then
    let projection :=
      match projectionMapping with
      | some pm =>
        String.intercalate ", " (pm.map fun p => table ++ "." ++ p.1 ++ " as " ++ p.2)
      | none =>
        match fullTextRankFilter with
        | some rfs =>
          table ++ ".id, " ++ String.intercalate ", "
            (rfs.map fun rf => table ++ "." ++ rf.searchField ++ " as " ++ rf.searchField)
        | none =>
          -- the `"as text, ... as metadata"` continuation in the source is a
          -- separate discarded expression statement
          table ++ ".id, " ++ table ++ "." ++ cfg.textField ++ " "
    if searchType = "hybrid" then
      (if withEmbedding then
        projection ++ ", " ++ table ++ "." ++ cfg.embeddingField ++ " as embedding"
       else projection)
        ++ ", VectorDistance(" ++ table ++ "." ++ cfg.embeddingField ++ ", "
        ++ pyReprFloats embeddings ++ ") as SimilarityScore"
    else projection
  else
    let projection :=
      match projectionMapping with
      | some pm =>
        String.intercalate ", " (pm.map fun p => table ++ "[@" ++ p.1 ++ "] as " ++ p.2)
      | none =>
        match fullTextRankFilter with
        | some rfs =>
          -- source omits ", " between `c.id` and the joined rank fields
          table ++ ".id" ++ String.intercalate ", "
            (rfs.map fun rf => table ++ "." ++ rf.searchField ++ " as " ++ rf.searchField)
        | none =>
          table ++ ".id, " ++ table ++ "[@textKey] as text, " ++ table ++ "[@metadataKey] as metadata"
    if searchType = "vector" then
      (if withEmbedding then projection ++ ", " ++ table ++ "[@embeddingKey] as embedding"
       else projection)
        ++ ", VectorDistance(" ++ table ++ "[@embeddingKey], @embeddings) as SimilarityScore"
    else projection

/-- `AzureCosmosDBNoSqlVectorSearch._build_parameters`. -/
def buildParameters (cfg : CosmosConfig) (k : Int) (searchType : String)
    (embeddings : Option (List Rat))
    (projectionMapping : Option (List (String × String))) : List (String × CVal) :=
  [("@limit", CVal.i k)]
    ++ (match projectionMapping with
        | some pm => pm.map fun p => ("@" ++ p.1, CVal.s p.1)
        | none => [("@textKey", CVal.s cfg.textField), ("@metadataKey", CVal.s cfg.metadataKey)])
    ++ (if searchType = "vector" then
          [("@embeddingKey", CVal.s cfg.embeddingField),
           ("@embeddings", match embeddings with
             | some xs => CVal.arr (xs.foldr (fun q a => CArr.cons (CVal.num q) a) CArr.nil)
             | none => CVal.null)]
        else [])

/-- `AzureCosmosDBNoSqlVectorSearch._construct_query`: statement text plus
parameter list.  Rank-fusion and hybrid clauses are literal-inlined (the
target does not bind parameters inside `ORDER BY RANK`); `@limit` and
`@embeddings` are bound only for the vector / full-text-search modes.
No validation of `k` is performed anywhere. -/
def constructQuery (cfg : CosmosConfig) (k : Int) (searchType : String)
    (embeddings : Option (List Rat)) (fullTextRankFilter : Option (List RankFilter))
    (offsetLimit : Option String) (projectionMapping : Option (List (String × String)))
    (withEmbedding : Bool) (whereClause : Option String) :
    Except String (String × List (String × CVal)) := do
  let table := cfg.tableAlias
  let query :=
    if searchType = "full_text_ranking" ∨ searchType = "hybrid" then
      "SELECT " ++ (if ¬ pyTruthy offsetLimit then "TOP " ++ toString k ++ " " else "")
    else
      "SELECT " ++ (if ¬ pyTruthy offsetLimit then "TOP @limit " else "")
  let query := query ++ generateProjectionFields cfg projectionMapping searchType
    embeddings fullTextRankFilter withEmbedding
  let query := query ++ " FROM " ++ table ++ " "
  let query := if pyTruthy whereClause then query ++ "WHERE " ++ whereClause.getD "" else query
  let query ←
    if searchType = "full_text_ranking" then
      match fullTextRankFilter with
      | none => .error "full_text_rank_filter cannot be None for FULL_TEXT_RANK queries."
      | some rfs =>
        if rfs.length = 1 then
          pure (query ++ " ORDER BY RANK FullTextScore(" ++ table ++ "."
            ++ ((rfs.head?.map RankFilter.searchField).getD "") ++ ", \n                ["
            ++ String.intercalate ", "
              (((rfs.head?.map RankFilter.searchText).map pySplit |>.getD []).map
                fun term => "\x27" ++ term ++ "\x27")
            ++ "])")
        else
          -- the source assigns (not appends) here, discarding the query built so far
          pure (" ORDER BY RANK RRF("
            ++ String.intercalate ", " (rfs.map (fullTextScoreExpr table)) ++ ")")
    else if searchType = "vector" then
      pure (query ++ " ORDER BY VectorDistance(c[@embeddingKey], @embeddings)")
    else if searchType = "hybrid" then
      match fullTextRankFilter with
      | none => .error "full_text_rank_filter cannot be None for HYBRID queries."
      | some rfs =>
        pure (query ++ " ORDER BY RANK RRF("
          ++ String.intercalate ", " (rfs.map (fullTextScoreExpr table))
          ++ ", \n            VectorDistance(" ++ table ++ "." ++ cfg.embeddingField
          ++ ", " ++ pyReprFloats embeddings ++ "))")
    else
      pure query
  let query := match offsetLimit with
    | some ol => query ++ " " ++ ol
    | none => query
  let parameters :=
    if searchType = "full_text_search" ∨ searchType = "vector" then
      buildParameters cfg k searchType embeddings projectionMapping
    else []
  return (query, parameters)

/-- Is the computation successful?  (Python: no exception raised.) -/
def exceptOk : Except ε α → Bool
  | .ok _ => true
  | .error _ => false

/-- Parameter list of a built query (empty for a failed build). -/
def paramsOf : Except String (String × List (String × CVal)) → List (String × CVal)
  | .ok (_, ps) => ps
  | .error _ => []

/-- A concrete store configuration used by counterexamples and witnesses. -/
def cfg0 : CosmosConfig :=
  ⟨"text", "embedding", "metadata", "c"⟩

/-- C4 counterexample.  Building a query with `k = 0` (and `k = -3`) succeeds:
no `InvalidLimit` validation error exists; the non-positive `k` is bound as
the `@limit` parameter and handed to the store. -/
theorem limit_not_validated_counterexample :
    exceptOk (constructQuery cfg0 0 "vector" (some [1]) none none none false none) = true ∧
    ("@limit", CVal.i 0) ∈
      paramsOf (constructQuery cfg0 0 "vector" (some [1]) none none none false none) ∧
    exceptOk (constructQuery cfg0 (-3) "full_text_search" none none none none false none) = true ∧
    ("@limit", CVal.i (-3)) ∈
      paramsOf (constructQuery cfg0 (-3) "full_text_search" none none none none false none) :=
  ⟨by decide, by decide, by decide, by decide⟩

/-- C4 (amended).  `_construct_query` never validates `k`: for every integer
`k` (including `k ≤ 0`) every search mode builds successfully; for the
vector and full-text-search modes `k` is passed through as the bound
`@limit` parameter, and for the ranking/hybrid modes no parameters are bound
at all (`TOP k` is inlined as a literal). -/
theorem query_builder_accepts_any_k (cfg : CosmosConfig) (k : Int)
    (e : List Rat) (rf : RankFilter) :
    (∃ q ps, constructQuery cfg k "vector" (some e) none none none false none = .ok (q, ps)
       ∧ ("@limit", CVal.i k) ∈ ps) ∧
    (∃ q, constructQuery cfg k "hybrid" (some e) (some [rf]) none none false none = .ok (q, [])) ∧
    (∃ q ps, constructQuery cfg k "full_text_search" none none none none false none = .ok (q, ps)
       ∧ ("@limit", CVal.i k) ∈ ps) ∧
    (∃ q, constructQuery cfg k "full_text_ranking" none (some [rf]) none none false none = .ok (q, [])) :=
  ⟨⟨_, _, rfl, by simp [buildParameters]⟩,
   ⟨_, rfl⟩,
   ⟨_, _, rfl, by simp [buildParameters]⟩,
   ⟨_, rfl⟩⟩

/-! ## Result mappers

`SQLServer_VectorStore._docs_and_scores_from_result` (skips undecodable rows)
and `AzureCosmosDBNoSqlVectorSearch._execute_query` (decodes items after the
store call). -/

/-- One row of the SQL Server result set: the ORM row object and the
materialized `distance` column, each possibly `None`. -/
structure EmbRow where
  content : String
  contentMetadata : CObj
deriving DecidableEq, Repr

structure SqlRow where
  embeddingStore : Option EmbRow
  distance : Option Rat
deriving DecidableEq, Repr

/-- A normalized `langchain` document produced by the SQL Server mapper. -/
structure SqlDoc where
  pageContent : String
  metadata : CObj
deriving DecidableEq, Repr

/-- The per-row decode of `_docs_and_scores_from_result`: succeeds iff the
row, its `EmbeddingStore` and its `distance` are all non-`None`. -/
def decodeSqlRow : Option SqlRow → Option (SqlDoc × Rat)
  | some r =>
    match r.embeddingStore, r.distance with
    | some es, some d => some (⟨es.content, es.contentMetadata⟩, d)
    | _, _ => none
  | none => none

/-- `SQLServer_VectorStore._docs_and_scores_from_result`: append decodable
rows in order; undecodable rows are logged and skipped. -/
def docsAndScoresFromResult (results : List (Option SqlRow)) : List (SqlDoc × Rat) :=
  results.filterMap decodeSqlRow

/-- A normalized document produced by the Cosmos mapper (`page_content` keeps
whatever dynamic value the item held). -/
structure CosDoc where
  pageContent : CVal
  metadata : CObj
deriving DecidableEq, Repr

/-- `item.pop(metadata_key, {})`, coerced to a dict (a non-dict metadata
value would only fail later, at assignment; it does not occur for rows
written by this store). -/
def metadataOf (item : CObj) (key : String) : CObj :=
  match item.getKey key with
  | .ok (.obj es) => es
  | _ => .nil

/-- The projection-mapping loop of `_execute_query`:
`metadata[alias] = item[alias]` for every non-text key. -/
def applyProjection (cfg : CosmosConfig) (item : CObj) :
    List (String × String) → CObj → Except String CObj
  | [], md => .ok md
  | (key, al) :: tl, md =>
    if key = cfg.textField then applyProjection cfg item tl md
    else
      match item.getKey al with
      | .error e => .error e
      | .ok v => applyProjection cfg item tl (md.setKey al v)

/-- The metadata assembly of `_execute_query`: projection aliases are copied
into the metadata when a projection mapping is given, the item id otherwise. -/
def buildMetadata (cfg : CosmosConfig) (pm : Option (List (String × String)))
    (popped : CObj) (md0 : CObj) : Except String CObj :=
  match pm with
  | some l => applyProjection cfg popped l md0
  | none =>
    match popped.getKey "id" with
    | .error e => .error e
    | .ok v => .ok (md0.setKey "id" v)

/-- The score (and optional embedding echo) step of `_execute_query`: the
vector/hybrid modes read the materialized `SimilarityScore` column, every
other mode keeps the `0.0` default. -/
def decodeItemWith (cfg : CosmosConfig) (searchType : String) (withEmbedding : Bool)
    (text : CVal) (popped : CObj) (md : CObj) : Except String (CosDoc × CVal) :=
  if searchType = "vector" ∨ searchType = "hybrid" then
    match popped.getKey "SimilarityScore" with
    | .error e => .error e
    | .ok score =>
      if withEmbedding then
        match popped.getKey cfg.embeddingField with
        | .error e => .error e
        | .ok v => .ok (⟨text, md.setKey cfg.embeddingField v⟩, score)
      else .ok (⟨text, md⟩, score)
  else .ok (⟨text, md⟩, CVal.num 0)

/-- Decode one Cosmos item, per `_execute_query`'s loop body.  Any missing
key (`text_field`, a projection alias, `id`, `SimilarityScore`, the
embedding field) raises a `KeyError`. -/
def decodeItem (cfg : CosmosConfig) (searchType : String) (withEmbedding : Bool)
    (pm : Option (List (String × String))) (item : CObj) : Except String (CosDoc × CVal) :=
  match item.getKey cfg.textField with
  | .error e => .error e
  | .ok text =>
    match buildMetadata cfg pm (item.removeKey cfg.metadataKey) (metadataOf item cfg.metadataKey) with
    | .error e => .error e
    | .ok md =>
      decodeItemWith cfg searchType withEmbedding text (item.removeKey cfg.metadataKey) md

/-- `AzureCosmosDBNoSqlVectorSearch._execute_query` after the store call:
decode the items in order; the first undecodable item raises, discarding
everything. -/
def executeQuery (cfg : CosmosConfig) (searchType : String) (items : List CObj)
    (withEmbedding : Bool) (pm : Option (List (String × String))) :
    Except String (List (CosDoc × CVal)) :=
  match items with
  | [] => .ok []
  | it :: tl =>
    match decodeItem cfg searchType withEmbedding pm it with
    | .error e => .error e
    | .ok d =>
      match executeQuery cfg searchType tl withEmbedding pm with
      | .error e => .error e
      | .ok rest => .ok (d :: rest)

/-- A Cosmos item that decodes in vector mode. -/
def goodItem0 : CObj :=
  .cons "id" (.s "1") (.cons "text" (.s "hello")
    (.cons "SimilarityScore" (.num 2) (.cons "metadata" (.obj .nil) .nil)))

/-- A Cosmos item missing the required text field. -/
def badItem0 : CObj :=
  .cons "id" (.s "2") (.cons "SimilarityScore" (.num 3) .nil)

/-- C5 counterexample.  In the Cosmos mapper one undecodable item (missing
text field) raises a `KeyError` and the whole result set is lost — including
the first item, which decodes fine on its own.  (The SQL Server mapper, by
contrast, skips undecodable rows, third conjunct.) -/
theorem cosmos_bad_row_fatal_counterexample :
    executeQuery cfg0 "vector" [goodItem0] false none =
      .ok [(⟨.s "hello", .cons "id" (.s "1") .nil⟩, .num 2)] ∧
    executeQuery cfg0 "vector" [goodItem0, badItem0] false none = .error "KeyError: text" ∧
    docsAndScoresFromResult
        [some ⟨some ⟨"hello", .nil⟩, some 1⟩, some ⟨none, some 1⟩, none,
         some ⟨some ⟨"again", .nil⟩, some 2⟩] =
      [(⟨"hello", .nil⟩, 1), (⟨"again", .nil⟩, 2)] :=
  ⟨by decide, by decide, by decide⟩

/-- C5 (amended).  The SQL Server mapper skips an undecodable row and still
returns every decodable row (in order); the Cosmos mapper is fatal: if any
item of the raw result fails to decode, the whole mapping fails and no rows
are returned. -/
theorem bad_row_skip_vs_fatal
    (l1 l2 : List (Option SqlRow)) (bad : Option SqlRow) (hbad : decodeSqlRow bad = none)
    (cfg : CosmosConfig) (st : String) (wE : Bool) (pm : Option (List (String × String)))
    (items : List CObj) (it : CObj) (hit : it ∈ items)
    (he : exceptOk (decodeItem cfg st wE pm it) = false) :
    docsAndScoresFromResult (l1 ++ bad :: l2) =
      docsAndScoresFromResult l1 ++ docsAndScoresFromResult l2 ∧
    exceptOk (executeQuery cfg st items wE pm) = false := by
  constructor
  · simp [docsAndScoresFromResult, List.filterMap_append, List.filterMap_cons, hbad]
  · induction items with
    | nil => cases hit
    | cons x tl ih =>
      rcases List.mem_cons.mp hit with h | h
      · subst h
        cases hd : decodeItem cfg st wE pm it with
        | error e => simp [executeQuery, hd, exceptOk]
        | ok d => rw [hd] at he; simp [exceptOk] at he
      · have := ih h
        cases hd : decodeItem cfg st wE pm x with
        | error e => simp [executeQuery, hd, exceptOk]
        | ok d =>
          simp only [executeQuery, hd]
          cases hrest : executeQuery cfg st tl wE pm with
          | error e => simp [exceptOk]
          | ok rest => rw [hrest] at this; simp [exceptOk] at this

/-- Witness for C5 (amended): a concrete bad row between two good ones, and
the concrete fatal Cosmos item set of the counterexample. -/
theorem bad_row_skip_vs_fatal_witness :
    decodeSqlRow (some ⟨none, some 1⟩) = none ∧
    badItem0 ∈ [goodItem0, badItem0] ∧
    exceptOk (decodeItem cfg0 "vector" false none badItem0) = false ∧
    (docsAndScoresFromResult
        ([some ⟨some ⟨"hello", .nil⟩, some 1⟩] ++ (some ⟨none, some 1⟩) ::
          [some ⟨some ⟨"again", .nil⟩, some 2⟩]) =
       docsAndScoresFromResult [some ⟨some ⟨"hello", .nil⟩, some 1⟩] ++
         docsAndScoresFromResult [some ⟨some ⟨"again", .nil⟩, some 2⟩] ∧
     exceptOk (executeQuery cfg0 "vector" [goodItem0, badItem0] false none) = false) :=
  ⟨by decide, by decide, by decide,
   bad_row_skip_vs_fatal _ _ _ (by decide) cfg0 "vector" false none _ badItem0
     (by decide) (by decide)⟩

/-- C8.  For every successfully mapped result row, the vector and hybrid
modes set the document score to exactly the row's materialized
`SimilarityScore` column value (no transformation), while the
full-text-search and full-text-ranking modes set it to `0.0`. -/
theorem mapped_score_per_mode (cfg : CosmosConfig) (st : String) (wE : Bool)
    (pm : Option (List (String × String))) (item : CObj) (doc : CosDoc) (score : CVal)
    (h : decodeItem cfg st wE pm item = .ok (doc, score)) :
    ((st = "vector" ∨ st = "hybrid") →
      (item.removeKey cfg.metadataKey).getKey "SimilarityScore" = .ok score) ∧
    ((st = "full_text_search" ∨ st = "full_text_ranking") → score = CVal.num 0) := by
  unfold decodeItem at h
  cases ht : item.getKey cfg.textField with
  | error e => rw [ht] at h; cases h
  | ok text =>
    rw [ht] at h
    cases hm : buildMetadata cfg pm (item.removeKey cfg.metadataKey)
        (metadataOf item cfg.metadataKey) with
    | error e => rw [hm] at h; cases h
    | ok md =>
      rw [hm] at h
      unfold decodeItemWith at h
      dsimp only at h
      constructor
      · intro hst
        rw [if_pos hst] at h
        cases hs : (item.removeKey cfg.metadataKey).getKey "SimilarityScore" with
        | error e => rw [hs] at h; cases h
        | ok sc =>
          rw [hs] at h
          cases wE with
          | true =>
            dsimp only at h
            cases hemb : (item.removeKey cfg.metadataKey).getKey cfg.embeddingField with
            | error e => rw [hemb] at h; cases h
            | ok v =>
              rw [hemb] at h
              simp only [if_true, Except.ok.injEq, Prod.mk.injEq] at h
              rw [h.2]
          | false =>
            simp only [Bool.false_eq_true, if_false, Except.ok.injEq, Prod.mk.injEq] at h
            rw [h.2]
      · intro hst
        have hne : ¬ (st = "vector" ∨ st = "hybrid") := by
          rcases hst with h1 | h1 <;> subst h1 <;> simp
        rw [if_neg hne] at h
        simp only [Except.ok.injEq, Prod.mk.injEq] at h
        exact h.2.symm

/-- Witness for C8 at a concrete vector-mode item with score column `2`. -/
theorem mapped_score_per_mode_witness :
    decodeItem cfg0 "vector" false none goodItem0 =
      .ok (⟨.s "hello", .cons "id" (.s "1") .nil⟩, .num 2) ∧
    ((("vector" = "vector" ∨ ("vector" : String) = "hybrid") →
      (goodItem0.removeKey cfg0.metadataKey).getKey "SimilarityScore" = .ok (.num 2)) ∧
     ((("vector" : String) = "full_text_search" ∨ ("vector" : String) = "full_text_ranking") →
      CVal.num 2 = CVal.num 0)) :=
  ⟨by decide,
   mapped_score_per_mode cfg0 "vector" false none goodItem0
     ⟨.s "hello", .cons "id" (.s "1") .nil⟩ (.num 2) (by decide)⟩

/-! ## Batch ingest pipeline

`SQLServer_VectorStore.add_texts` / `_insert_embeddings` /
`_validate_batch_size`.  The embedding capability and `uuid.uuid4()` are
external: embedding results do not influence the returned ids, and the uuid
generator is modelled as a supply `uuid : Nat → String` consumed via a
counter.  Each `embed_documents` invocation is logged as the batch it was
called with. -/

/-- Python `d.get(key)` on a metadata dict. -/
def CObj.find? : CObj → String → Option CVal
  | .nil, _ => none
  | .cons k v tl, key => if k = key then some v else tl.find? key

/-- `[metadata.get("id", uuid.uuid4()) for metadata in metadatas]` — the
default argument is evaluated eagerly, so one uuid is consumed per metadata
whether or not it is used. -/
def genIdsFromMetadata (uuid : Nat → String) (ctr : Nat) : List CObj → List CVal × Nat
  | [] => ([], ctr)
  | m :: tl =>
    let v := (m.find? "id").getD (CVal.s (uuid ctr))
    let r := genIdsFromMetadata uuid (ctr + 1) tl
    (v :: r.1, r.2)

/-- `SQLServer_VectorStore._insert_embeddings`, id assignment: default the
metadatas, derive ids from metadata (or uuids) when none are given, and have
the enumerate loop append a fresh uuid for every text beyond the available
ids.  The returned value is the final `ids` list (returned as-is, not
stringified); the staged insert payloads only feed the store and do not
affect it. -/
def insertEmbeddings (uuid : Nat → String) (ctr : Nat) (texts : List String)
    (metadatas : Option (List CObj)) (ids : Option (List String)) : List CVal × Nat :=
  let metas := metadatas.getD (texts.map fun _ => CObj.nil)
  let idsCtr :=
    match ids with
    | none => genIdsFromMetadata uuid ctr metas
    | some l => (l.map CVal.s, ctr)
  let ext := texts.length - idsCtr.1.length
  (idsCtr.1 ++ (List.range ext).map (fun j => CVal.s (uuid (idsCtr.2 + j))), idsCtr.2 + ext)

/-- `SQLServer_VectorStore._validate_batch_size`: `batch_size ≤ 0` or
`> MAX_BATCH_SIZE = 419` is a `ValueError`. -/
def validateBatchSize (bs : Int) : Except String Int :=
  if bs ≤ 0 ∨ bs > 419 then .error "The request contains an invalid batch_size"
  else .ok bs

/-- The `for i in range(0, len(texts), batch_size)` loop of `add_texts`:
slice a batch of texts/ids/metadatas, embed it (logged), insert it, recurse
on the rest.  `fuel ≥ texts.length` makes the recursion structural; it never
runs out when `0 < b`. -/
def addTextsGo (uuid : Nat → String) (b : Nat) :
    Nat → Nat → List String → Option (List CObj) → Option (List String) →
    List CVal × List (List String) × Nat
  | _, ctr, [], _, _ => ([], [], ctr)
  | 0, ctr, _, _, _ => ([], [], ctr)
  | fuel + 1, ctr, texts, metadatas, ids =>
    let batch := texts.take b
    let ins := insertEmbeddings uuid ctr batch (metadatas.map (List.take b)) (ids.map (List.take b))
    let rest := addTextsGo uuid b fuel ins.2 (texts.drop b) (metadatas.map (List.drop b)) (ids.map (List.drop b))
    (ins.1 ++ rest.1, batch :: rest.2.1, rest.2.2)

/-- `SQLServer_VectorStore.add_texts`: validate the batch size, then process
the texts in consecutive batches.  Returns the assigned ids together with the
log of `embed_documents` invocations (one entry per call, holding the batch
it was called with). -/
def addTexts (uuid : Nat → String) (texts : List String)
    (metadatas : Option (List CObj)) (ids : Option (List String)) (bs : Int) :
    Except String (List CVal × List (List String)) :=
  match validateBatchSize bs with
  | .error e => .error e
  | .ok b =>
    let r := addTextsGo uuid b.toNat texts.length 0 texts metadatas ids
    .ok (r.1, r.2.1)

theorem genIds_len (uuid : Nat → String) : ∀ (ms : List CObj) (ctr : Nat),
    (genIdsFromMetadata uuid ctr ms).1.length = ms.length
  | [], _ => rfl
  | m :: tl, ctr => by
    simp [genIdsFromMetadata, genIds_len uuid tl (ctr + 1)]

theorem insertEmbeddings_len (uuid : Nat → String) (ctr : Nat) (ts : List String)
    (metadatas : Option (List CObj))
    (hm : metadatas = none ∨ ∃ ms, metadatas = some ms ∧ ms.length = ts.length) :
    (insertEmbeddings uuid ctr ts metadatas none).1.length = ts.length := by
  have hlen : (metadatas.getD (List.replicate ts.length CObj.nil)).length = ts.length := by
    rcases hm with h | ⟨ms, h, hl⟩
    · subst h; simp
    · subst h; simpa using hl
  simp [insertEmbeddings, genIds_len, hlen]

theorem insertEmbeddings_given (uuid : Nat → String) (ctr : Nat) (ts : List String)
    (metadatas : Option (List CObj)) (l : List String) (hl : l.length = ts.length) :
    (insertEmbeddings uuid ctr ts metadatas (some l)).1 = l.map CVal.s := by
  simp [insertEmbeddings, hl]

theorem addTextsGo_spec (uuid : Nat → String) (b : Nat) (hb : 0 < b) :
    ∀ (fuel : Nat) (texts : List String) (metadatas : Option (List CObj))
      (ids : Option (List String)) (ctr : Nat),
      texts.length ≤ fuel →
      (ids = none ∨ ∃ l, ids = some l ∧ l.length = texts.length) →
      (metadatas = none ∨ ∃ ms, metadatas = some ms ∧ ms.length = texts.length) →
      (addTextsGo uuid b fuel ctr texts metadatas ids).2.1.flatten = texts ∧
      (∀ c ∈ (addTextsGo uuid b fuel ctr texts metadatas ids).2.1, c ≠ [] ∧ c.length ≤ b) ∧
      (∀ i, i + 1 < (addTextsGo uuid b fuel ctr texts metadatas ids).2.1.length →
        ∀ c, (addTextsGo uuid b fuel ctr texts metadatas ids).2.1.get? i = some c → c.length = b) ∧
      (addTextsGo uuid b fuel ctr texts metadatas ids).1.length = texts.length ∧
      (∀ l, ids = some l → (addTextsGo uuid b fuel ctr texts metadatas ids).1 = l.map CVal.s) ∧
      ((addTextsGo uuid b fuel ctr texts metadatas ids).2.1 = [] ↔ texts = []) := by
  intro fuel
  induction fuel with
  | zero =>
    intro texts metadatas ids ctr hf hids hmet
    have : texts = [] := List.length_eq_zero.mp (Nat.le_zero.mp hf)
    subst this
    have hids0 : ∀ (l : List String), ids = some l → l = [] := by
      intro l hl
      rcases hids with h | ⟨l2, h2, hl2⟩
      · rw [hl] at h; cases h
      · rw [hl] at h2
        injection h2 with he
        subst he
        exact List.length_eq_zero.mp (by simpa using hl2)
    simp [addTextsGo]
    intro l hl
    rw [hids0 l hl]
  | succ n ih =>
    intro texts metadatas ids ctr hf hids hmet
    cases texts with
    | nil =>
      have hids0 : ∀ (l : List String), ids = some l → l = [] := by
        intro l hl
        rcases hids with h | ⟨l2, h2, hl2⟩
        · rw [hl] at h; cases h
        · rw [hl] at h2
          injection h2 with he
          subst he
          exact List.length_eq_zero.mp (by simpa using hl2)
      simp [addTextsGo]
      intro l hl
      rw [hids0 l hl]
    | cons t ts' =>
      have hids' : ids.map (List.drop b) = none ∨
          ∃ l, ids.map (List.drop b) = some l ∧ l.length = ((t :: ts').drop b).length := by
        rcases hids with h | ⟨l, h, hl⟩
        · subst h; exact Or.inl rfl
        · subst h; exact Or.inr ⟨l.drop b, rfl, by simp [hl]⟩
      have hmet' : metadatas.map (List.drop b) = none ∨
          ∃ ms, metadatas.map (List.drop b) = some ms ∧ ms.length = ((t :: ts').drop b).length := by
        rcases hmet with h | ⟨ms, h, hm2⟩
        · subst h; exact Or.inl rfl
        · subst h; exact Or.inr ⟨ms.drop b, rfl, by simp [hm2]⟩
      have hlen1 : (t :: ts').length ≤ n + 1 := hf
      have hfuel' : ((t :: ts').drop b).length ≤ n := by
        rw [List.length_drop]
        simp only [List.length_cons] at hlen1 ⊢
        omega
      have IH := ih ((t :: ts').drop b) (metadatas.map (List.drop b)) (ids.map (List.drop b))
        (insertEmbeddings uuid ctr ((t :: ts').take b)
          (metadatas.map (List.take b)) (ids.map (List.take b))).2 hfuel' hids' hmet'
      have hinslen : (insertEmbeddings uuid ctr ((t :: ts').take b)
          (metadatas.map (List.take b)) (ids.map (List.take b))).1.length =
          ((t :: ts').take b).length := by
        rcases hids with h | ⟨l, h, hl⟩
        · subst h
          apply insertEmbeddings_len
          rcases hmet with h2 | ⟨ms, h2, hm2⟩
          · subst h2; exact Or.inl rfl
          · subst h2; exact Or.inr ⟨ms.take b, rfl, by simp [hm2]⟩
        · subst h
          simp only [Option.map_some']
          rw [insertEmbeddings_given uuid ctr _ _ _ (by simp [hl])]
          simp [hl]
      have hbatchne : (t :: ts').take b ≠ [] := by
        cases b with
        | zero => exact absurd hb (by simp)
        | succ m => simp
      have hbatchle : ((t :: ts').take b).length ≤ b := by
        rw [List.length_take]; omega
      simp only [addTextsGo]
      refine ⟨?_, ?_, ?_, ?_, ?_, ?_⟩
      · -- join
        simp only [List.flatten_cons, IH.1]
        exact List.take_append_drop b (t :: ts')
      · -- batches nonempty and bounded
        intro c hc
        rcases List.mem_cons.mp hc with h | h
        · subst h; exact ⟨hbatchne, hbatchle⟩
        · exact IH.2.1 c h
      · -- all but the last batch are full
        intro i hi c hgc
        cases i with
        | zero =>
          simp only [List.length_cons] at hi
          have hrestne : (addTextsGo uuid b n
              (insertEmbeddings uuid ctr ((t :: ts').take b)
                (metadatas.map (List.take b)) (ids.map (List.take b))).2
              ((t :: ts').drop b) (metadatas.map (List.drop b)) (ids.map (List.drop b))).2.1 ≠ [] := by
            intro hnil
            rw [hnil] at hi
            simp at hi
          have hdropne : (t :: ts').drop b ≠ [] := fun hdn => hrestne (IH.2.2.2.2.2.mpr hdn)
          have : b < (t :: ts').length := by
            by_contra hge
            exact hdropne (List.drop_eq_nil_of_le (by omega))
          simp only [List.get?] at hgc
          cases hgc
          rw [List.length_take]
          omega
        | succ j =>
          simp only [List.length_cons] at hi
          simp only [List.get?] at hgc
          exact IH.2.2.1 j (by omega) c hgc
      · -- one id per text
        simp only [List.length_append, hinslen, IH.2.2.2.1]
        rw [List.length_take, List.length_drop]
        omega
      · -- given ids are returned in order
        intro l hl
        subst hl
        rcases hids with h | ⟨l2, h2, hl2⟩
        · cases h
        · injection h2 with he
          subst he
          simp only [Option.map_some'] at IH ⊢
          rw [insertEmbeddings_given uuid ctr _ _ _ (by simp [hl2]),
            IH.2.2.2.2.1 (l.drop b) (by simp), ← List.map_append, List.take_append_drop]
      · -- the call log is empty iff there were no texts
        simp

/-- C7.  With a valid batch size, ingest splits the texts into consecutive
batches — the logged `embed_documents` calls concatenate back to the input,
every batch is nonempty and at most the batch size, and all but the last are
exactly the batch size (one embedding call per batch) — and the returned id
sequence has one id per text, echoing caller-supplied ids in input order. -/
theorem ingest_batches_and_ids (uuid : Nat → String) (texts : List String)
    (metadatas : Option (List CObj)) (ids : Option (List String)) (bs : Int)
    (outIds : List CVal) (calls : List (List String))
    (hok : addTexts uuid texts metadatas ids bs = .ok (outIds, calls))
    (hids : ids = none ∨ ∃ l, ids = some l ∧ l.length = texts.length)
    (hmet : metadatas = none ∨ ∃ ms, metadatas = some ms ∧ ms.length = texts.length) :
    calls.flatten = texts ∧
    (∀ c ∈ calls, c ≠ [] ∧ c.length ≤ bs.toNat) ∧
    (∀ i, i + 1 < calls.length → ∀ c, calls.get? i = some c → c.length = bs.toNat) ∧
    outIds.length = texts.length ∧
    (∀ l, ids = some l → outIds = l.map CVal.s) := by
  unfold addTexts validateBatchSize at hok
  by_cases hbs : bs ≤ 0 ∨ bs > 419
  · rw [if_pos hbs] at hok; cases hok
  · rw [if_neg hbs] at hok
    dsimp only at hok
    injection hok with h1
    rw [Prod.mk.injEq] at h1
    obtain ⟨ha, hb2⟩ := h1
    subst ha
    subst hb2
    have hb : 0 < bs.toNat := by omega
    have S := addTextsGo_spec uuid bs.toNat hb texts.length texts metadatas ids 0
      le_rfl hids hmet
    exact ⟨S.1, S.2.1, S.2.2.1, S.2.2.2.1, S.2.2.2.2.1⟩

/-- Witness for C7: three texts with batch size 2 yield exactly the batches
`["a","b"]` and `["c"]` (two embedding calls of sizes 2 and 1) and three
generated ids in input order. -/
theorem ingest_batches_and_ids_witness :
    addTexts (fun n => toString n) ["a", "b", "c"] none none 2 =
      .ok ([.s "0", .s "1", .s "2"], [["a", "b"], ["c"]]) ∧
    (((none : Option (List String)) = none ∨
       ∃ l, (none : Option (List String)) = some l ∧ l.length = (["a", "b", "c"] : List String).length)) ∧
    (([["a", "b"], ["c"]] : List (List String)).flatten = ["a", "b", "c"] ∧
     (∀ c ∈ ([["a", "b"], ["c"]] : List (List String)), c ≠ [] ∧ c.length ≤ (2 : Int).toNat) ∧
     (∀ i, i + 1 < ([["a", "b"], ["c"]] : List (List String)).length →
       ∀ c, ([["a", "b"], ["c"]] : List (List String)).get? i = some c → c.length = (2 : Int).toNat) ∧
     ([CVal.s "0", CVal.s "1", CVal.s "2"].length = (["a", "b", "c"] : List String).length) ∧
     (∀ l, (none : Option (List String)) = some l →
       [CVal.s "0", CVal.s "1", CVal.s "2"] = l.map CVal.s)) :=
  ⟨by decide, Or.inl rfl,
   ingest_batches_and_ids (fun n => toString n) ["a", "b", "c"] none none 2
     [.s "0", .s "1", .s "2"] [["a", "b"], ["c"]] (by decide) (Or.inl rfl) (Or.inl rfl)⟩

/-! ## Delete

`SQLServer_VectorStore.delete` / `_delete_texts_by_ids` and
`AzureCosmosDBNoSqlVectorSearch.delete`.  A store is abstracted as the list
of its rows' ids. -/

abbrev SqlStore := List String

/-- `_delete_texts_by_ids`: rows affected and the resulting table;
`ids = None` deletes every row. -/
def deleteTextsByIds (ids : Option (List String)) (store : SqlStore) : Nat × SqlStore :=
  match ids with
  | none => (store.length, [])
  | some l => ((store.filter fun r => r ∈ l).length, store.filter fun r => r ∉ l)

/-- `SQLServer_VectorStore.delete`: an empty id list short-circuits to
`False` (nothing deleted); otherwise `False` when zero rows were affected,
`True` when at least one was.  The affected count is logged, not returned. -/
def sqlserverDelete (ids : Option (List String)) (store : SqlStore) : Bool × SqlStore :=
  match ids with
  | some [] => (false, store)
  | _ =>
    let r := deleteTextsByIds ids store
    if r.1 = 0 then (false, r.2) else (true, r.2)

/-- One `container.delete_item` call: the SDK raises when the id is absent. -/
def cosmosDeleteOne (store : List String) (docId : String) : Except String (List String) :=
  if docId ∈ store then .ok (store.filter fun r => r ≠ docId)
  else .error "CosmosResourceNotFoundError"

/-- The per-id deletion loop of `AzureCosmosDBNoSqlVectorSearch.delete`. -/
def cosmosDeleteGo : List String → List String → Except String (Bool × List String)
  | [], store => .ok (true, store)
  | d :: tl, store =>
    match cosmosDeleteOne store d with
    | .error e => .error e
    | .ok s2 => cosmosDeleteGo tl s2

/-- `AzureCosmosDBNoSqlVectorSearch.delete`: raises when `ids is None`,
otherwise deletes the listed documents one by one and returns `True`. -/
def cosmosDelete (ids : Option (List String)) (store : List String) :
    Except String (Bool × List String) :=
  match ids with
  | none => .error "No document ids provided to delete."
  | some l => cosmosDeleteGo l store

/-- C9 counterexample.  Two delete calls whose affected row counts differ
(1 vs 2 rows) return the same value `True`, and the Cosmos delete also
returns `True` — the return value is a boolean success flag that cannot be
the count of rows affected. -/
theorem delete_returns_bool_counterexample :
    (deleteTextsByIds (some ["a", "b"]) ["a"]).1 = 1 ∧
    (deleteTextsByIds (some ["a", "b"]) ["a", "b"]).1 = 2 ∧
    (sqlserverDelete (some ["a", "b"]) ["a"]).1 = true ∧
    (sqlserverDelete (some ["a", "b"]) ["a", "b"]).1 = true ∧
    cosmosDelete (some ["a", "b"]) ["a", "b"] = .ok (true, []) :=
  ⟨by decide, by decide, by decide, by decide, by decide⟩

/-- C9 (amended).  For every non-empty id list, delete returns a boolean,
not a count: SQL Server returns `True` iff the deletion affected at least
one row, and Cosmos returns `True` whenever every per-id deletion succeeds
(raising when `ids` is `None`). -/
theorem delete_boolean_result (ids : List String) (hne : ids ≠ []) (store : SqlStore)
    (cstore : List String) :
    ((sqlserverDelete (some ids) store).1 = true ↔ (deleteTextsByIds (some ids) store).1 ≠ 0) ∧
    (∀ r, cosmosDelete (some ids) cstore = .ok r → r.1 = true) := by
  constructor
  · cases ids with
    | nil => exact absurd rfl hne
    | cons d tl =>
      simp only [sqlserverDelete]
      by_cases h : (deleteTextsByIds (some (d :: tl)) store).1 = 0
      · rw [if_pos h]; simp [h]
      · rw [if_neg h]; simp [h]
  · intro r
    simp only [cosmosDelete]
    clear hne
    induction ids generalizing cstore with
    | nil =>
      intro h
      cases h
      rfl
    | cons d tl ih =>
      intro h
      simp only [cosmosDeleteGo] at h
      cases hd : cosmosDeleteOne cstore d with
      | error e => rw [hd] at h; cases h
      | ok s2 => rw [hd] at h; exact ih s2 h

/-- Witness for C9 (amended) at a concrete two-row store. -/
theorem delete_boolean_result_witness :
    (["a", "b"] : List String) ≠ [] ∧
    (((sqlserverDelete (some ["a", "b"]) ["a", "x"]).1 = true ↔
        (deleteTextsByIds (some ["a", "b"]) ["a", "x"]).1 ≠ 0) ∧
     (∀ r, cosmosDelete (some ["a", "b"]) ["a", "b"] = .ok r → r.1 = true)) :=
  ⟨by decide, delete_boolean_result ["a", "b"] (by decide) ["a", "x"] ["a", "b"]⟩

/-- C10.  In the SQL Server store, `delete(ids=None)` deletes every row (the
affected count is the whole table size and the table is left empty), while
`delete(ids=[])` deletes nothing: it returns `False` and leaves every row
unchanged. -/
theorem delete_none_vs_empty (store : SqlStore) :
    deleteTextsByIds none store = (store.length, []) ∧
    (sqlserverDelete none store).2 = [] ∧
    sqlserverDelete (some []) store = (false, store) := by
  refine ⟨rfl, ?_, rfl⟩
  simp only [sqlserverDelete, deleteTextsByIds]
  by_cases h : store.length = 0
  · rw [if_pos h]
  · rw [if_neg h]
